import Mathlib

/-!
Verification of the instruction-driven code-modification pipeline
(Scanner / Selector / SnippetExtractor / Planner / Worker / Patcher /
Orchestrator).  Python strings are modelled as `List Char`; Python dicts
with a fixed key set are modelled as structures (a possibly-absent key
becomes an `Option` field); the filesystem is modelled as association
lists from path to content, with the backup directory kept as a separate
store keyed by (stem, suffix, counter) — matching `Tools.create_backup`,
which writes `backup_dir / name` and disambiguates collisions with a
numeric counter in the stem.  Python floats are modelled as rationals:
every discrepancy established below is independent of rounding.
-/

namespace AgentPipeline

/-- Python `str` as a list of characters. -/
abbrev Str := List Char

/-- `startsWithL pat s` : does `s` start with `pat`?  (Python slice test.) -/
def startsWithL : Str → Str → Bool
  | [], _ => true
  | _ :: _, [] => false
  | p :: ps, c :: t => if p = c then startsWithL ps t else false

/-- Python `pat in s` (substring containment; the empty pattern is in every string). -/
def containsSub (pat : Str) : Str → Bool
  | [] => startsWithL pat []
  | c :: t => startsWithL pat (c :: t) || containsSub pat t

/-- Auxiliary for `countOccs`: scans left to right with a cooldown
counter; after a match the next `pat.length - 1` positions are inside the
matched span and are skipped, making the count non-overlapping exactly
as Python `str.count` computes it. -/
def countAux (pat : Str) : Str → Nat → Nat
  | [], _ => 0
  | _ :: t, skip + 1 => countAux pat t skip
  | c :: t, 0 =>
    if startsWithL pat (c :: t) then
      1 + countAux pat t (pat.length - 1)
    else
      countAux pat t 0

/-- Python `s.count(pat)`: non-overlapping occurrences scanning from the
left (for the empty pattern Python returns `len s + 1`). -/
def countOccs (pat s : Str) : Nat :=
  match pat with
  | [] => s.length + 1
  | p :: ps => countAux (p :: ps) s 0

/-- Auxiliary for `replaceFirst`: replace the leftmost occurrence of `p :: ps`. -/
def replaceFirstAux (p : Char) (ps repl : Str) : Str → Str
  | [] => []
  | c :: t =>
    if startsWithL (p :: ps) (c :: t) then
      repl ++ t.drop ps.length
    else
      c :: replaceFirstAux p ps repl t

/-- Python `s.replace(pat, repl, 1)`: replace the leftmost occurrence,
leave `s` unchanged when `pat` does not occur; for the empty pattern
Python prepends `repl`. -/
def replaceFirst (s pat repl : Str) : Str :=
  match pat with
  | [] => repl ++ s
  | p :: ps => replaceFirstAux p ps repl s

/-- One edit operation, the dict `{"operation", "match", "replacement"}`
produced by the Worker (`match` is a Lean keyword, hence `matchText`). -/
structure Edit where
  operation : Str
  matchText : Str
  replacement : Str
deriving DecidableEq

/-- The only supported operation kind. -/
def replaceOp : Str := "replace".data

/-- The body of the per-edit loop in `Patcher.apply_edits`
(src/patcher.py lines 44-70): a "replace" edit whose match text is
present (Python `in`) and whose Python occurrence count is not > 1 is
applied with `str.replace(match, replacement, 1)`; any other edit is
skipped.  Returns the new content and whether the edit was applied. -/
def applyEditStep (content : Str) (e : Edit) : Str × Bool :=
  if e.operation = replaceOp then
    if containsSub e.matchText content = false then
      (content, false)
    else if 1 < countOccs e.matchText content then
      (content, false)
    else
      (replaceFirst content e.matchText e.replacement, true)
  else
    (content, false)

/-- The edit loop of `Patcher.apply_edits`: runs the edits in list order
against the progressively-mutated content, returning the final content
and the number of applied edits (`applied_count`). -/
def applyLoop : Str → List Edit → Str × Nat
  | content, [] => (content, 0)
  | content, e :: rest =>
    let step := applyEditStep content e
    let next := applyLoop step.1 rest
    (next.1, (if step.2 then 1 else 0) + next.2)

/-- The per-edit rule as the spec words it: an edit whose match text
occurs exactly once in the current content is applied by replacing that
single occurrence; otherwise the content is unchanged.  (Occurrences are
counted the way the code counts them: Python `str.count`,
non-overlapping from the left.) -/
def specStep (content : Str) (e : Edit) : Str :=
  if countOccs e.matchText content = 1 then
    replaceFirst content e.matchText e.replacement
  else
    content

lemma containsSub_nil (s : Str) : containsSub [] s = true := by
  cases s <;> simp [containsSub, startsWithL]

lemma containsSub_iff_countOccs_pos (pat s : Str) :
    containsSub pat s = true ↔ 1 ≤ countOccs pat s := by
  match pat with
  | [] =>
    simp [containsSub_nil, countOccs]
  | p :: ps =>
    induction s with
    | nil =>
      simp [containsSub, countOccs, countAux, startsWithL]
    | cons c t ih =>
      by_cases h : startsWithL (p :: ps) (c :: t) = true
      · simp [containsSub, countOccs, countAux, h]
      · simp only [containsSub, countOccs, countAux, h] at *
        simp [h, ih]

lemma applyEditStep_fst_eq_specStep (content : Str) (e : Edit)
    (hop : e.operation = replaceOp) :
    (applyEditStep content e).1 = specStep content e := by
  unfold applyEditStep specStep
  rw [if_pos hop]
  by_cases hc : containsSub e.matchText content = false
  · have hcount : ¬ 1 ≤ countOccs e.matchText content := by
      intro hle
      rw [(containsSub_iff_countOccs_pos e.matchText content).2 hle] at hc
      exact Bool.noConfusion hc
    have : countOccs e.matchText content ≠ 1 := by omega
    simp [hc, this]
  · have hc' : containsSub e.matchText content = true := by
      revert hc
      cases containsSub e.matchText content <;> simp
    have hge : 1 ≤ countOccs e.matchText content :=
      (containsSub_iff_countOccs_pos e.matchText content).1 hc'
    by_cases hgt : 1 < countOccs e.matchText content
    · have : countOccs e.matchText content ≠ 1 := by omega
      simp [hc, hgt, this]
    · have : countOccs e.matchText content = 1 := by omega
      simp [hc, hgt, this]

/-- Key of one backup file: `Tools.create_backup` names backups after the
original file (`Path(path).stem` / `Path(path).suffix`), disambiguating a
collision by an increasing numeric counter in the stem; counter `0`
stands for the undecorated first candidate `Path(path).name`. -/
structure BackupKey where
  stem : String
  suffix : String
  counter : Nat
deriving DecidableEq

/-- The filesystem: live project files keyed by path, plus the backup
directory (a separate store, `Tools.backup_dir`) keyed by `BackupKey`. -/
structure FS where
  files : List (String × Str)
  backups : List (BackupKey × Str)
deriving DecidableEq

/-- First-match association lookup (Python dict access / file lookup). -/
def assocLookup {α β : Type} [DecidableEq α] : List (α × β) → α → Option β
  | [], _ => none
  | (k2, v) :: t, k => if k2 = k then some v else assocLookup t k

/-- Overwrite-or-append association update (Python dict/file write). -/
def assocSet {α β : Type} [DecidableEq α] : List (α × β) → α → β → List (α × β)
  | [], k, v => [(k, v)]
  | (k2, v2) :: t, k, v =>
    if k2 = k then (k, v) :: t else (k2, v2) :: assocSet t k v

/-- Counters already used by backups of a file with this stem and suffix. -/
def usedCounters (backups : List (BackupKey × Str)) (stem suffix : String) :
    List Nat :=
  backups.filterMap fun b =>
    if b.1.stem = stem ∧ b.1.suffix = suffix then some b.1.counter else none

/-- Largest element of a list of naturals (0 for the empty list). -/
def maxList (l : List Nat) : Nat := l.foldr max 0

/-- The `while backup_path.exists()` loop of `Tools.create_backup`: try
counters `0, 1, 2, ...` and take the first unused one.  Fuel bounds the
search; with fuel `used.length + 1` the fallback is never reached. -/
def leastFreeAux (used : List Nat) : Nat → Nat → Nat
  | 0, _ => maxList used + 1
  | fuel + 1, k => if k ∈ used then leastFreeAux used fuel (k + 1) else k

/-- First free backup counter for a given stem/suffix. -/
def leastFree (used : List Nat) : Nat := leastFreeAux used (used.length + 1) 0

/-- `Tools.create_backup` (src/tools.py lines 43-60): no-op when the file
does not exist, otherwise copy its content to the backup directory under
the first collision-free numeric name. -/
def create_backup (fs : FS) (path : String) (stem suffix : String) : FS :=
  match assocLookup fs.files path with
  | none => fs
  | some content =>
    let k := leastFree (usedCounters fs.backups stem suffix)
    { fs with backups := (⟨stem, suffix, k⟩, content) :: fs.backups }

/-- `Tools.write_file` modelled on the association-list filesystem;
`writeOk` abstracts whether the underlying OS write raises (the Python
function returns `False` and the model leaves the store unchanged). -/
def write_file (fs : FS) (path : String) (content : Str) (writeOk : Bool) :
    FS × Bool :=
  if writeOk then ({ fs with files := assocSet fs.files path content }, true)
  else (fs, false)

/-- `Patcher.apply_edits` (src/patcher.py lines 15-82): empty batch →
`false`; unreadable file → `false`; otherwise back the file up (when
enabled), run the edit loop, and write the mutated content back only
when at least one edit was applied, returning the write's success.
`stem`/`suffix` are the `Path(path).stem` / `Path(path).suffix`
decomposition used for the backup name. -/
def apply_edits (createBackups writeOk : Bool) (fs : FS) (path : String)
    (stem suffix : String) (edits : List Edit) : FS × Bool :=
  if edits = [] then (fs, false)
  else
    match assocLookup fs.files path with
    | none => (fs, false)
    | some content =>
      let fs1 := if createBackups then create_backup fs path stem suffix else fs
      let result := applyLoop content edits
      if result.2 = 0 then (fs1, false)
      else write_file fs1 path result.1 writeOk

lemma create_backup_files (fs : FS) (path : String) (stem suffix : String) :
    (create_backup fs path stem suffix).files = fs.files := by
  unfold create_backup
  cases assocLookup fs.files path <;> rfl

lemma assocLookup_assocSet_self {α β : Type} [DecidableEq α]
    (l : List (α × β)) (k : α) (v : β) :
    assocLookup (assocSet l k v) k = some v := by
  induction l with
  | nil => simp [assocSet, assocLookup]
  | cons h t ih =>
    by_cases hk : h.1 = k
    · simp [assocSet, hk, assocLookup]
    · simp [assocSet, hk, assocLookup, ih]

lemma assocLookup_assocSet_ne {α β : Type} [DecidableEq α]
    (l : List (α × β)) (k k2 : α) (v : β) (hne : k ≠ k2) :
    assocLookup (assocSet l k v) k2 = assocLookup l k2 := by
  induction l with
  | nil => simp [assocSet, assocLookup, hne]
  | cons h t ih =>
    by_cases hk : h.1 = k
    · simp [assocSet, hk, assocLookup, hne]
    · simp [assocSet, hk, assocLookup, ih]

lemma maxList_ge (l : List Nat) : ∀ x ∈ l, x ≤ maxList l := by
  induction l with
  | nil => intro x hx; cases hx
  | cons a t ih =>
    intro x hx
    rcases List.mem_cons.1 hx with h | h
    · subst h; exact le_max_left _ _
    · exact le_trans (ih x h) (le_max_right _ _)

lemma leastFreeAux_not_mem (used : List Nat) :
    ∀ fuel k, leastFreeAux used fuel k ∉ used := by
  intro fuel
  induction fuel with
  | zero =>
    intro k hm
    simp only [leastFreeAux] at hm
    have := maxList_ge used _ hm
    omega
  | succ n ih =>
    intro k
    by_cases hk : k ∈ used
    · simpa [leastFreeAux, hk] using ih (k + 1)
    · simp [leastFreeAux, hk]

lemma leastFree_not_mem (used : List Nat) : leastFree used ∉ used :=
  leastFreeAux_not_mem used (used.length + 1) 0

lemma mem_usedCounters_of_lookup (backups : List (BackupKey × Str))
    (stem suffix : String) (k : Nat) (v : Str)
    (h : assocLookup backups ⟨stem, suffix, k⟩ = some v) :
    k ∈ usedCounters backups stem suffix := by
  induction backups with
  | nil => simp [assocLookup] at h
  | cons b t ih =>
    by_cases hb : b.1 = (⟨stem, suffix, k⟩ : BackupKey)
    · simp [usedCounters, List.filterMap_cons, hb]
    · simp only [assocLookup, hb, if_neg, if_false] at h
      have := ih h
      simp only [usedCounters, List.filterMap_cons] at *
      split <;> simp [this]

/-- `Config.SNIPPET_CONTEXT_LINES` (src/config.py). -/
def SNIPPET_CONTEXT_LINES : Nat := 60

/-- `Config.MAX_FILES_TO_ANALYZE` (src/config.py). -/
def MAX_FILES_TO_ANALYZE : Nat := 15

/-- Python `s.lower()` (ASCII model). -/
def toLowerStr (s : Str) : Str := s.map Char.toLower

/-- The snippet dict produced by `SnippetExtractor.extract_snippets`;
the `relevant_lines` key is present only in the keyword-match branch. -/
structure Snippet where
  file_path : String
  full_file : Bool
  content : Str
  line_start : Nat
  line_end : Nat
  total_lines : Nat
  relevant_lines : Option (List Nat)
deriving DecidableEq

/-- `SnippetExtractor._find_relevant_lines` inner loop: 0-based indices of
the lines containing some keyword as a case-insensitive substring. -/
def findRelevantAux (keywords : List Str) : Nat → List Str → List Nat
  | _, [] => []
  | i, l :: rest =>
    if keywords.any (fun k => containsSub (toLowerStr k) (toLowerStr l)) then
      i :: findRelevantAux keywords (i + 1) rest
    else
      findRelevantAux keywords (i + 1) rest

/-- `SnippetExtractor._find_relevant_lines` (src/snippet_extractor.py lines 73-84). -/
def find_relevant_lines (lines : List Str) (keywords : List Str) : List Nat :=
  findRelevantAux keywords 0 lines

/-- `SnippetExtractor.extract_snippets` (src/snippet_extractor.py lines
15-71), parametrized by the configured `context_lines`.  A file of at
most `2 * ctx` lines is returned whole; otherwise a window around the
median keyword-matching line (or the top of the file when nothing
matches) is cut out with Python slice semantics. -/
def extract_snippets (ctx : Nat) (file_path : String) (file_lines : List Str)
    (keywords : List Str) : Snippet :=
  let total := file_lines.length
  if total ≤ ctx * 2 then
    { file_path := file_path, full_file := true, content := file_lines.flatten,
      line_start := 1, line_end := total, total_lines := total,
      relevant_lines := none }
  else
    let relevant := find_relevant_lines file_lines keywords
    if relevant = [] then
      let snippetLines := file_lines.take ctx
      { file_path := file_path, full_file := false,
        content := snippetLines.flatten, line_start := 1,
        line_end := snippetLines.length, total_lines := total,
        relevant_lines := none }
    else
      let center := relevant.getD (relevant.length / 2) 0
      let startL := center - ctx / 2
      let stopL := min total (center + ctx / 2)
      let snippetLines := (file_lines.drop startL).take (stopL - startL)
      { file_path := file_path, full_file := false,
        content := snippetLines.flatten, line_start := startL + 1,
        line_end := stopL, total_lines := total,
        relevant_lines := some relevant }

/-- One scanner record (`ProjectScanner.scan` dict, src/scanner.py lines
42-49) with the possibly-present `relevance_score` key the Selector may
add; the scanner itself always produces it absent. -/
structure FileRecord where
  path : String
  absolute_path : String
  extension : String
  size : Nat
  lines : Nat
  name : String
  relevance_score : Option ℚ
deriving DecidableEq

/-- The Selector's stop-word set (src/selector.py lines 56-62). -/
def stopWords : List Str :=
  (["the", "a", "an", "and", "or", "but", "in", "on", "at", "to", "for",
    "of", "with", "by", "from", "as", "is", "was", "are", "were", "be",
    "been", "being", "have", "has", "had", "do", "does", "did", "will",
    "would", "should", "could", "may", "might", "must", "can", "this",
    "that", "these", "those", "i", "you", "he", "she", "it", "we",
    "they"]).map String.data

/-- A regex `\w` character (ASCII model of Python word characters). -/
def isWordChar (c : Char) : Bool := c.isAlphanum || c = '_'

/-- Auxiliary for `tokenizeAux`: walks the characters keeping the current
word-character run (reversed) in `acc`, emitting it whenever it ends. -/
def tokenizeGo : Str → Str → List Str
  | [], acc => if acc = [] then [] else [acc.reverse]
  | c :: t, acc =>
    if isWordChar c then tokenizeGo t (c :: acc)
    else if acc = [] then tokenizeGo t [] else acc.reverse :: tokenizeGo t []

/-- `re.findall(r'\b\w+\b', s)`: the maximal runs of word characters. -/
def tokenizeAux (s : Str) : List Str := tokenizeGo s []

/-- `FileSelector._extract_keywords` (src/selector.py lines 53-68):
lowercase word tokens of the instruction, without stop words and without
tokens of length ≤ 2.  Note this returns a list: a token repeated in the
instruction is kept with its multiplicity. -/
def extract_keywords (instruction : Str) : List Str :=
  (tokenizeAux (toLowerStr instruction)).filter fun w =>
    !(stopWords.contains w) && decide (2 < w.length)

/-- `FileSelector._score_file` (src/selector.py lines 70-104), with
Python floats modelled as rationals (`0.8 = 4/5`). -/
def score_file (f : FileRecord) (keywords : List Str) (instruction : Str) : ℚ :=
  let file_path := toLowerStr f.path.data
  let file_name := toLowerStr f.name.data
  let score1 := keywords.foldl
    (fun sc k =>
      let sc2 := if containsSub k file_name then sc + 10 else sc
      if containsSub k file_path then sc2 + 5 else sc2)
    (0 : ℚ)
  let score2 :=
    if f.extension ∈ [".py", ".js", ".ts", ".tsx", ".jsx"] then score1 + 2
    else score1
  let score3 := if 1000 < f.lines then score2 * (4 / 5) else score2
  let score4 :=
    if (["config", "main", "index", "app", "core"].map String.data).any
        (fun n => containsSub n file_name) then score3 + 3
    else score3
  let instrL := toLowerStr instruction
  let score5 :=
    if containsSub "test".data instrL && containsSub "test".data file_path then
      score4 + 8
    else score4
  let score6 :=
    if containsSub "component".data instrL &&
        containsSub "component".data file_path then
      score5 + 8
    else score5
  if containsSub "module".data instrL && containsSub "module".data file_path then
    score6 + 8
  else score6

/-- The caller-visible effect of the Selector's scoring pass on the input
records: `select_files` sets `file_info['relevance_score'] = score` on
every record whose score is positive (src/selector.py line 38, an
in-place dict mutation), and does not touch the others. -/
def annotateRecords (files : List FileRecord) (keywords : List Str)
    (instruction : Str) : List FileRecord :=
  files.map fun f =>
    let s := score_file f keywords instruction
    if 0 < s then { f with relevance_score := some s } else f

/-- Score used as the Python sort key (`x['relevance_score']`). -/
def scoreVal (f : FileRecord) : ℚ := f.relevance_score.getD 0

/-- `FileSelector.select_files` (src/selector.py lines 16-51) with the
dict mutation made explicit: returns the post-call state of the input
records alongside the selected list (positive-scoring records annotated,
stably sorted by descending score, truncated to `maxFiles`). -/
def select_files (maxFiles : Nat) (files : List FileRecord)
    (instruction : Str) : List FileRecord × List FileRecord :=
  let keywords := extract_keywords instruction
  let filesAfter := annotateRecords files keywords instruction
  let scored := files.filterMap fun f =>
    let s := score_file f keywords instruction
    if 0 < s then some { f with relevance_score := some s } else none
  let sorted := scored.mergeSort fun a b => decide (scoreVal b ≤ scoreVal a)
  (filesAfter, sorted.take maxFiles)

/-- A decoded JSON value (what `json.loads` yields). -/
inductive JValue where
  | null : JValue
  | bool : Bool → JValue
  | num : ℚ → JValue
  | str : String → JValue
  | arr : List JValue → JValue
  | obj : List (String × JValue) → JValue

/-- A decoded JSON object (Python dict), as produced by `json.loads`. -/
abbrev JObj := List (String × JValue)

/-- Python `dict.setdefault`-style defaulting used by `_parse_plan`:
`if key not in plan: plan[key] = v`. -/
def setDefaultKey (o : JObj) (k : String) (v : JValue) : JObj :=
  if (assocLookup o k).isSome then o else o ++ [(k, v)]

/-- The schema-defaulting block of `PlannerAgent._parse_plan`
(src/planner.py lines 121-133): `targets`, `actions`,
`package_installs`, `websearch_queries` default to `[]` and `run_tests`
to `false`; no other key — in particular not `test_command` — is
defaulted. -/
def parse_plan_validate (o : JObj) : JObj :=
  setDefaultKey
    (setDefaultKey
      (setDefaultKey
        (setDefaultKey
          (setDefaultKey o "targets" (JValue.arr []))
          "actions" (JValue.arr []))
        "package_installs" (JValue.arr []))
      "websearch_queries" (JValue.arr []))
    "run_tests" (JValue.bool false)

/-- Python `s.strip()`: remove leading and trailing whitespace. -/
def pyStrip (s : Str) : Str :=
  ((s.dropWhile Char.isWhitespace).reverse.dropWhile Char.isWhitespace).reverse

/-- The markdown-fence removal of `_parse_plan` / `_parse_edits`: when the
(stripped) response starts with three backticks, drop the first and last
of its newline-separated lines. -/
def stripFences (s : Str) : Str :=
  if startsWithL "```".data s then
    List.intercalate ['\n'] (((s.splitOn '\n').drop 1).dropLast)
  else s

/-- `PlannerAgent._parse_plan` (src/planner.py lines 108-133), with
`json.loads` abstracted as the `decode` parameter: strip, remove fences,
decode; a decode failure or a non-object result is a parse error (the
raised exception), an object is schema-defaulted. -/
def parse_plan (decode : Str → Option JValue) (response : Str) : Option JObj :=
  match decode (stripFences (pyStrip response)) with
  | some (JValue.obj o) => some (parse_plan_validate o)
  | _ => none

/-- The `_empty_plan` sentinel of `PlannerAgent` (src/planner.py lines 135-144). -/
def emptyPlanObj : JObj :=
  [("targets", JValue.arr []), ("actions", JValue.arr []),
   ("package_installs", JValue.arr []), ("websearch_queries", JValue.arr []),
   ("run_tests", JValue.bool false), ("test_command", JValue.str "")]

/-- `PlannerAgent.create_plan` (src/planner.py lines 17-50) after the
prompt build: the `llm.generate` call sits OUTSIDE the try block and
`LLMClient.generate` re-raises transport exceptions (src/llm.py lines
81-90), so its outcome is an `Except` whose error propagates; only the
parse step is guarded by try/except, failures there yielding
`_empty_plan()`. -/
def create_plan (decode : Str → Option JValue)
    (genResult : Except String Str) : Except String JObj :=
  match genResult with
  | Except.error e => Except.error e
  | Except.ok response =>
    match parse_plan decode response with
    | some plan => Except.ok plan
    | none => Except.ok emptyPlanObj

/-- The default edits object `{"edits": []}`. -/
def emptyEditsObj : JObj := [("edits", JValue.arr [])]

/-- `WorkerAgent._parse_edits` (src/worker.py lines 101-117): same
strip/fence/decode pipeline; an object without an `edits` key is
replaced wholesale by `{"edits": []}`. -/
def parse_edits (decode : Str → Option JValue) (response : Str) : Option JObj :=
  match decode (stripFences (pyStrip response)) with
  | some (JValue.obj o) =>
    some (if (assocLookup o "edits").isSome then o else emptyEditsObj)
  | _ => none

/-- `WorkerAgent.generate_edits` (src/worker.py lines 17-52): like
`create_plan`, the `llm.generate` call is outside the try block, so a
transport error propagates; a parse failure is caught and yields
`{"edits": []}`. -/
def generate_edits (decode : Str → Option JValue)
    (genResult : Except String Str) : Except String JObj :=
  match genResult with
  | Except.error e => Except.error e
  | Except.ok response =>
    match parse_edits decode response with
    | some ed => Except.ok ed
    | none => Except.ok emptyEditsObj

/-- The diff-reporting step of `AutonomousAgent._execute_edits`
(src/main.py lines 208-215), run after `patcher.apply_edits` returned
`True`: read `full_path + ".backup"` (defaulting to the empty string),
read the current file, and show a diff only when both are non-empty.
Returns the pair of contents handed to the diff viewer, or `none` when
nothing is shown. -/
def executeEditsDiffStep (fs : FS) (path : String) : Option (Str × Str) :=
  let old_content := (assocLookup fs.files (path ++ ".backup")).getD []
  let new_content := (assocLookup fs.files path).getD []
  if old_content ≠ [] ∧ new_content ≠ [] then some (old_content, new_content)
  else none

lemma applyLoop_fst_eq_foldl (content : Str) (edits : List Edit)
    (h : ∀ e ∈ edits, e.operation = replaceOp) :
    (applyLoop content edits).1 = edits.foldl specStep content := by
  induction edits generalizing content with
  | nil => rfl
  | cons e rest ih =>
    have hop : e.operation = replaceOp := h e (List.mem_cons_self e rest)
    have hrest : ∀ x ∈ rest, x.operation = replaceOp := fun x hx =>
      h x (List.mem_cons_of_mem e hx)
    simp only [applyLoop, List.foldl_cons]
    rw [applyEditStep_fst_eq_specStep content e hop]
    exact ih (specStep content e) hrest

/-- Claim C1: `Patcher.apply_edits` computes the final content by folding
the edits in list order over the progressively-mutated content: an edit
whose match text occurs exactly once in the current content (Python
occurrence counting) is applied by replacing that single occurrence with
its replacement, and an edit whose match occurs zero times or more than
once is skipped, leaving the content unchanged at that step while later
unambiguous edits still apply.  When at least one edit applies and the
write succeeds, this folded content is exactly what is written back. -/
theorem apply_edits_folds_unique_replacements (content : Str)
    (edits : List Edit)
    (h : edits.all (fun e => e.operation == replaceOp) = true) :
    (applyLoop content edits).1 = edits.foldl specStep content ∧
    ∀ createBackups fs path stem suffix,
      assocLookup fs.files path = some content →
      1 ≤ (applyLoop content edits).2 →
      assocLookup
        (apply_edits createBackups true fs path stem suffix edits).1.files
        path = some (edits.foldl specStep content) := by
  have hall : ∀ e ∈ edits, e.operation = replaceOp := by
    intro e he
    exact eq_of_beq (List.all_eq_true.1 h e he)
  have hfold := applyLoop_fst_eq_foldl content edits hall
  refine ⟨hfold, ?_⟩
  intro cb fs path stem suffix hread happ
  have hne : edits ≠ [] := by
    intro hcontra
    subst hcontra
    simp [applyLoop] at happ
  have hnz : (applyLoop content edits).2 ≠ 0 := by omega
  unfold apply_edits
  rw [if_neg hne, hread]
  simp only [hnz, if_neg, if_false, write_file, if_pos]
  rw [← hfold]
  cases cb with
  | true =>
    simp only [if_pos]
    rw [create_backup_files]
    exact assocLookup_assocSet_self fs.files path (applyLoop content edits).1
  | false =>
    exact assocLookup_assocSet_self fs.files path (applyLoop content edits).1

/-- Witness for C1 on the spec scenario: content `"x = 1\ny = 2\n"`, one
replace edit `"x = 1" -> "x = 10"`. -/
theorem apply_edits_folds_unique_replacements_witness :
    (applyLoop "x = 1\ny = 2\n".data
        [⟨"replace".data, "x = 1".data, "x = 10".data⟩]).1 =
      [(⟨"replace".data, "x = 1".data, "x = 10".data⟩ : Edit)].foldl specStep
        "x = 1\ny = 2\n".data ∧
    assocLookup
      (apply_edits true true ⟨[("app.py", "x = 1\ny = 2\n".data)], []⟩
        "app.py" "app" ".py"
        [⟨"replace".data, "x = 1".data, "x = 10".data⟩]).1.files "app.py" =
      some ([(⟨"replace".data, "x = 1".data, "x = 10".data⟩ : Edit)].foldl
        specStep "x = 1\ny = 2\n".data) :=
  ⟨(apply_edits_folds_unique_replacements "x = 1\ny = 2\n".data
      [⟨"replace".data, "x = 1".data, "x = 10".data⟩] (by decide)).1,
   (apply_edits_folds_unique_replacements "x = 1\ny = 2\n".data
      [⟨"replace".data, "x = 1".data, "x = 10".data⟩] (by decide)).2
     true ⟨[("app.py", "x = 1\ny = 2\n".data)], []⟩ "app.py" "app" ".py"
     rfl (by decide)⟩

/-- Claim C2: for a readable file, if the edit loop applies no edit the
live file store is untouched and the call returns `false`; the call
returns `true` exactly when at least one edit applied and the write
back succeeded. -/
theorem apply_edits_no_write_when_none_applied
    (createBackups writeOk : Bool) (fs : FS) (path stem suffix : String)
    (edits : List Edit) (content : Str)
    (hread : assocLookup fs.files path = some content) :
    ((applyLoop content edits).2 = 0 →
      (apply_edits createBackups writeOk fs path stem suffix edits).1.files
        = fs.files ∧
      (apply_edits createBackups writeOk fs path stem suffix edits).2
        = false) ∧
    ((apply_edits createBackups writeOk fs path stem suffix edits).2 = true ↔
      1 ≤ (applyLoop content edits).2 ∧ writeOk = true) := by
  by_cases hne : edits = []
  · subst hne
    simp [apply_edits, applyLoop]
  · have hfiles1 :
        (if createBackups then create_backup fs path stem suffix else fs).files
          = fs.files := by
      cases createBackups
      · rfl
      · simp only [if_pos]
        exact create_backup_files fs path stem suffix
    by_cases happ : (applyLoop content edits).2 = 0
    · have hres : apply_edits createBackups writeOk fs path stem suffix edits
          = (if createBackups then create_backup fs path stem suffix else fs,
             false) := by
        unfold apply_edits
        rw [if_neg hne, hread]
        simp [happ]
      rw [hres]
      constructor
      · exact fun _ => ⟨hfiles1, rfl⟩
      · simp [happ]
    · have h1 : 1 ≤ (applyLoop content edits).2 := by omega
      constructor
      · exact fun h0 => absurd h0 happ
      · unfold apply_edits
        rw [if_neg hne, hread]
        cases writeOk
        · simp [happ, write_file]
        · simp [happ, write_file, h1]

/-- Witness for C2: a batch whose only edit has an ambiguous match (the
`"="` occurs twice) is fully skipped: the file store is unchanged and the
call reports `false`. -/
theorem apply_edits_no_write_witness :
    ((applyLoop "x = 1\ny = 2\n".data
        [⟨"replace".data, "=".data, "EQ".data⟩]).2 = 0 ∧
      (apply_edits true true ⟨[("app.py", "x = 1\ny = 2\n".data)], []⟩
        "app.py" "app" ".py"
        [⟨"replace".data, "=".data, "EQ".data⟩]).1.files
        = [("app.py", "x = 1\ny = 2\n".data)] ∧
      (apply_edits true true ⟨[("app.py", "x = 1\ny = 2\n".data)], []⟩
        "app.py" "app" ".py"
        [⟨"replace".data, "=".data, "EQ".data⟩]).2 = false) :=
  ⟨by decide,
   ((apply_edits_no_write_when_none_applied true true
      ⟨[("app.py", "x = 1\ny = 2\n".data)], []⟩ "app.py" "app" ".py"
      [⟨"replace".data, "=".data, "EQ".data⟩] "x = 1\ny = 2\n".data
      rfl).1 (by decide)).1,
   ((apply_edits_no_write_when_none_applied true true
      ⟨[("app.py", "x = 1\ny = 2\n".data)], []⟩ "app.py" "app" ".py"
      [⟨"replace".data, "=".data, "EQ".data⟩] "x = 1\ny = 2\n".data
      rfl).1 (by decide)).2⟩

/-- Claim C10: with backups enabled and the target readable, a non-empty
edit batch always creates a new backup entry — named after the original
file with the first free numeric counter, never overwriting an existing
backup, and holding the pre-edit content — before any edit applicability
is checked, so the backup exists even when every edit is skipped and the
live file store is untouched. -/
theorem apply_edits_creates_fresh_backup
    (writeOk : Bool) (fs : FS) (path stem suffix : String)
    (edits : List Edit) (content : Str)
    (hread : assocLookup fs.files path = some content)
    (hne : edits ≠ []) :
    (apply_edits true writeOk fs path stem suffix edits).1.backups
      = ((⟨stem, suffix, leastFree (usedCounters fs.backups stem suffix)⟩ :
          BackupKey), content) :: fs.backups ∧
    assocLookup fs.backups
      ⟨stem, suffix, leastFree (usedCounters fs.backups stem suffix)⟩
      = none ∧
    ((applyLoop content edits).2 = 0 →
      (apply_edits true writeOk fs path stem suffix edits).1.files
        = fs.files) := by
  refine ⟨?_, ?_, ?_⟩
  · unfold apply_edits create_backup
    rw [if_neg hne, hread]
    by_cases happ : (applyLoop content edits).2 = 0
    · simp [happ]
    · cases writeOk
      · simp [happ, write_file]
      · simp [happ, write_file]
  · cases hb : assocLookup fs.backups
        ⟨stem, suffix, leastFree (usedCounters fs.backups stem suffix)⟩ with
    | none => rfl
    | some v =>
      exact absurd (mem_usedCounters_of_lookup fs.backups stem suffix _ v hb)
        (leastFree_not_mem (usedCounters fs.backups stem suffix))
  · intro happ
    unfold apply_edits
    rw [if_neg hne, hread]
    simp [happ, create_backup_files]

/-- Witness for C10: a batch whose single edit is skipped (ambiguous
match) still creates the counter-0 backup of the original content, on a
filesystem that had no backups. -/
theorem apply_edits_creates_fresh_backup_witness :
    (apply_edits true true ⟨[("app.py", "x = 1\ny = 2\n".data)], []⟩
        "app.py" "app" ".py"
        [⟨"replace".data, "=".data, "EQ".data⟩]).1.backups
      = [((⟨"app", ".py",
            leastFree (usedCounters [] "app" ".py")⟩ : BackupKey),
          "x = 1\ny = 2\n".data)] ∧
    assocLookup ([] : List (BackupKey × Str))
      ⟨"app", ".py", leastFree (usedCounters [] "app" ".py")⟩ = none ∧
    (apply_edits true true ⟨[("app.py", "x = 1\ny = 2\n".data)], []⟩
        "app.py" "app" ".py"
        [⟨"replace".data, "=".data, "EQ".data⟩]).1.files
      = [("app.py", "x = 1\ny = 2\n".data)] :=
  ⟨(apply_edits_creates_fresh_backup true
      ⟨[("app.py", "x = 1\ny = 2\n".data)], []⟩ "app.py" "app" ".py"
      [⟨"replace".data, "=".data, "EQ".data⟩] "x = 1\ny = 2\n".data rfl
      (by decide)).1,
   (apply_edits_creates_fresh_backup true
      ⟨[("app.py", "x = 1\ny = 2\n".data)], []⟩ "app.py" "app" ".py"
      [⟨"replace".data, "=".data, "EQ".data⟩] "x = 1\ny = 2\n".data rfl
      (by decide)).2.1,
   (apply_edits_creates_fresh_backup true
      ⟨[("app.py", "x = 1\ny = 2\n".data)], []⟩ "app.py" "app" ".py"
      [⟨"replace".data, "=".data, "EQ".data⟩] "x = 1\ny = 2\n".data rfl
      (by decide)).2.2 (by decide)⟩

lemma apply_edits_files_lookup_other (createBackups writeOk : Bool)
    (fs : FS) (path stem suffix : String) (edits : List Edit) (k2 : String)
    (hk : path ≠ k2) :
    assocLookup
      (apply_edits createBackups writeOk fs path stem suffix edits).1.files
      k2 = assocLookup fs.files k2 := by
  unfold apply_edits
  by_cases hne : edits = []
  · rw [if_pos hne]
  · rw [if_neg hne]
    cases hread : assocLookup fs.files path with
    | none => rfl
    | some content =>
      have hfiles1 :
          (if createBackups then create_backup fs path stem suffix else fs).files
            = fs.files := by
        cases createBackups
        · rfl
        · exact create_backup_files fs path stem suffix
      by_cases happ : (applyLoop content edits).2 = 0
      · simp [happ, hfiles1]
      · cases writeOk
        · simp [happ, write_file, hfiles1]
        · simp [happ, write_file, hfiles1]
          rw [assocLookup_assocSet_ne fs.files path k2 _ hk]

lemma string_ne_append_backup (path : String) : path ≠ path ++ ".backup" := by
  intro h
  have hlen := congrArg String.length h
  rw [String.length_append] at hlen
  have : (".backup" : String).length = 7 := rfl
  omega

/-- Claim C8 concerns the diff-reporting step after a successful
`apply_edits`: the orchestrator reads its "backup" from
`full_path + ".backup"` — a path the backup step never writes (backups
go to the backup directory under the file's own name) — so whenever the
project holds no pre-existing file literally named `path + ".backup"`,
no diff is computed or reported, contradicting the documented
backup-vs-current diff report. -/
theorem diff_step_reports_nothing (createBackups writeOk : Bool) (fs : FS)
    (path stem suffix : String) (edits : List Edit)
    (h : assocLookup fs.files (path ++ ".backup") = none) :
    executeEditsDiffStep
      (apply_edits createBackups writeOk fs path stem suffix edits).1 path
      = none := by
  unfold executeEditsDiffStep
  rw [apply_edits_files_lookup_other createBackups writeOk fs path stem suffix
    edits (path ++ ".backup") (string_ne_append_backup path), h]
  simp

/-- Witness for C8: on the spec scenario the edit applies successfully
(`apply_edits` returns `true` and the content is rewritten), yet the
diff step reports nothing. -/
theorem diff_step_reports_nothing_witness :
    (apply_edits true true ⟨[("app.py", "x = 1\ny = 2\n".data)], []⟩
        "app.py" "app" ".py"
        [⟨"replace".data, "x = 1".data, "x = 10".data⟩]).2 = true ∧
    executeEditsDiffStep
      (apply_edits true true ⟨[("app.py", "x = 1\ny = 2\n".data)], []⟩
        "app.py" "app" ".py"
        [⟨"replace".data, "x = 1".data, "x = 10".data⟩]).1 "app.py"
      = none :=
  ⟨by decide,
   diff_step_reports_nothing true true
     ⟨[("app.py", "x = 1\ny = 2\n".data)], []⟩ "app.py" "app" ".py"
     [⟨"replace".data, "x = 1".data, "x = 10".data⟩] (by decide)⟩

/-- Claim C5: a file of at most twice the configured context-window size
is always returned whole — `full_file = true`, content the exact
concatenation of all lines, `line_start = 1`, `line_end` the total line
count — regardless of the keyword list. -/
theorem extract_snippets_full_file (ctx : Nat) (file_path : String)
    (file_lines : List Str) (keywords : List Str)
    (h : file_lines.length ≤ ctx * 2) :
    extract_snippets ctx file_path file_lines keywords =
      { file_path := file_path, full_file := true,
        content := file_lines.flatten, line_start := 1,
        line_end := file_lines.length, total_lines := file_lines.length,
        relevant_lines := none } := by
  unfold extract_snippets
  rw [if_pos h]

/-- Witness for C5 at the configured window size (60): a two-line file
with an empty keyword list. -/
theorem extract_snippets_full_file_witness :
    ["x = 1\n".data, "y = 2\n".data].length ≤ SNIPPET_CONTEXT_LINES * 2 ∧
    extract_snippets SNIPPET_CONTEXT_LINES "app.py"
        ["x = 1\n".data, "y = 2\n".data] [] =
      { file_path := "app.py", full_file := true,
        content := ["x = 1\n".data, "y = 2\n".data].flatten, line_start := 1,
        line_end := ["x = 1\n".data, "y = 2\n".data].length,
        total_lines := ["x = 1\n".data, "y = 2\n".data].length,
        relevant_lines := none } :=
  ⟨by decide,
   extract_snippets_full_file SNIPPET_CONTEXT_LINES "app.py"
     ["x = 1\n".data, "y = 2\n".data] [] (by decide)⟩

/-- The median matched 0-based line index picked at
src/snippet_extractor.py line 57 (`relevant_lines[len(relevant_lines) // 2]`). -/
def medianRelevant (file_lines keywords : List Str) : Nat :=
  (find_relevant_lines file_lines keywords).getD
    ((find_relevant_lines file_lines keywords).length / 2) 0

/-- Window start (src/snippet_extractor.py line 58); truncated natural
subtraction is Python's `max(0, center - ctx // 2)`. -/
def windowStart (ctx center : Nat) : Nat := center - ctx / 2

/-- Window stop (src/snippet_extractor.py line 59): `min(total, center + ctx // 2)`. -/
def windowStop (ctx total center : Nat) : Nat := min total (center + ctx / 2)

lemma findRelevantAux_mem_lt (keywords : List Str) :
    ∀ (n : Nat) (ls : List Str) (i : Nat),
      i ∈ findRelevantAux keywords n ls → i < n + ls.length := by
  intro n ls
  induction ls generalizing n with
  | nil =>
    intro i hi
    simp [findRelevantAux] at hi
  | cons l rest ih =>
    intro i hi
    by_cases hmatch :
        (keywords.any fun k => containsSub (toLowerStr k) (toLowerStr l)) = true
    · rw [findRelevantAux, if_pos hmatch] at hi
      rcases List.mem_cons.1 hi with h | h
      · subst h
        simp only [List.length_cons]
        omega
      · have := ih (n + 1) i h
        simp only [List.length_cons]
        omega
    · rw [findRelevantAux, if_neg hmatch] at hi
      have := ih (n + 1) i hi
      simp only [List.length_cons]
      omega

lemma getD_mem_of_lt : ∀ (l : List Nat) (i : Nat), i < l.length →
    l.getD i 0 ∈ l := by
  intro l
  induction l with
  | nil =>
    intro i hi
    simp at hi
  | cons a t ih =>
    intro i hi
    cases i with
    | zero => simp
    | succ n =>
      simp only [List.getD_cons_succ]
      exact List.mem_cons_of_mem a (ih n (by simpa using hi))

lemma medianRelevant_lt_length (file_lines keywords : List Str)
    (hrel : find_relevant_lines file_lines keywords ≠ []) :
    medianRelevant file_lines keywords < file_lines.length := by
  have hpos : 0 < (find_relevant_lines file_lines keywords).length :=
    List.length_pos.2 hrel
  have hidx : (find_relevant_lines file_lines keywords).length / 2
      < (find_relevant_lines file_lines keywords).length :=
    Nat.div_lt_self hpos one_lt_two
  have hmem : medianRelevant file_lines keywords
      ∈ find_relevant_lines file_lines keywords :=
    getD_mem_of_lt _ _ hidx
  have := findRelevantAux_mem_lt keywords 0 file_lines _ hmem
  simpa using this

/-- Claim C6: for a file larger than twice the window with at least one
case-insensitive keyword match, the snippet is the single contiguous
window of window-size lines centered on the median matched line, clamped
to the file bounds: its content is exactly the lines of that range,
`line_start`/`line_end` (1-based) delimit it, the median matched line
lies inside it, and when no clamping occurs (and the window size is
even, as the configured 60 is) the range is exactly window-size lines. -/
theorem extract_snippets_median_window (ctx : Nat) (file_path : String)
    (file_lines : List Str) (keywords : List Str)
    (hbig : ctx * 2 < file_lines.length)
    (hrel : find_relevant_lines file_lines keywords ≠ [])
    (hctx : 2 ≤ ctx) :
    extract_snippets ctx file_path file_lines keywords =
      { file_path := file_path, full_file := false,
        content := ((file_lines.drop
            (windowStart ctx (medianRelevant file_lines keywords))).take
          (windowStop ctx file_lines.length
              (medianRelevant file_lines keywords)
            - windowStart ctx (medianRelevant file_lines keywords))).flatten,
        line_start := windowStart ctx (medianRelevant file_lines keywords) + 1,
        line_end := windowStop ctx file_lines.length
          (medianRelevant file_lines keywords),
        total_lines := file_lines.length,
        relevant_lines := some (find_relevant_lines file_lines keywords) } ∧
    windowStart ctx (medianRelevant file_lines keywords)
      ≤ medianRelevant file_lines keywords ∧
    medianRelevant file_lines keywords
      < windowStop ctx file_lines.length (medianRelevant file_lines keywords) ∧
    windowStop ctx file_lines.length (medianRelevant file_lines keywords)
      - windowStart ctx (medianRelevant file_lines keywords) ≤ ctx ∧
    (ctx % 2 = 0 →
      ctx / 2 ≤ medianRelevant file_lines keywords →
      medianRelevant file_lines keywords + ctx / 2 ≤ file_lines.length →
      windowStop ctx file_lines.length (medianRelevant file_lines keywords)
        - windowStart ctx (medianRelevant file_lines keywords) = ctx) := by
  have hmlt := medianRelevant_lt_length file_lines keywords hrel
  refine ⟨?_, ?_, ?_, ?_, ?_⟩
  · unfold extract_snippets
    rw [if_neg (by omega : ¬ file_lines.length ≤ ctx * 2), if_neg hrel]
    rfl
  · unfold windowStart
    omega
  · unfold windowStop
    omega
  · unfold windowStart windowStop
    omega
  · intro hpar hlo hhi
    unfold windowStart windowStop
    omega

/-- Witness for C6 with window size 2 on a five-line file whose third
line matches the keyword: the window is lines 2-3 (1-based), two lines,
containing the median match. -/
theorem extract_snippets_median_window_witness :
    extract_snippets 2 "app.py"
        ["a\n".data, "b\n".data, "key c\n".data, "d\n".data, "e\n".data]
        ["key".data] =
      { file_path := "app.py", full_file := false,
        content := ((["a\n".data, "b\n".data, "key c\n".data, "d\n".data,
            "e\n".data].drop
            (windowStart 2 (medianRelevant
              ["a\n".data, "b\n".data, "key c\n".data, "d\n".data, "e\n".data]
              ["key".data]))).take
          (windowStop 2 5 (medianRelevant
              ["a\n".data, "b\n".data, "key c\n".data, "d\n".data, "e\n".data]
              ["key".data])
            - windowStart 2 (medianRelevant
              ["a\n".data, "b\n".data, "key c\n".data, "d\n".data, "e\n".data]
              ["key".data]))).flatten,
        line_start := windowStart 2 (medianRelevant
            ["a\n".data, "b\n".data, "key c\n".data, "d\n".data, "e\n".data]
            ["key".data]) + 1,
        line_end := windowStop 2 5 (medianRelevant
            ["a\n".data, "b\n".data, "key c\n".data, "d\n".data, "e\n".data]
            ["key".data]),
        total_lines := 5,
        relevant_lines := some (find_relevant_lines
          ["a\n".data, "b\n".data, "key c\n".data, "d\n".data, "e\n".data]
          ["key".data]) } ∧
    windowStop 2 5 (medianRelevant
        ["a\n".data, "b\n".data, "key c\n".data, "d\n".data, "e\n".data]
        ["key".data])
      - windowStart 2 (medianRelevant
        ["a\n".data, "b\n".data, "key c\n".data, "d\n".data, "e\n".data]
        ["key".data]) = 2 :=
  ⟨(extract_snippets_median_window 2 "app.py"
      ["a\n".data, "b\n".data, "key c\n".data, "d\n".data, "e\n".data]
      ["key".data] (by decide) (by decide) (by decide)).1,
   (extract_snippets_median_window 2 "app.py"
      ["a\n".data, "b\n".data, "key c\n".data, "d\n".data, "e\n".data]
      ["key".data] (by decide) (by decide) (by decide)).2.2.2.2
     (by decide) (by decide) (by decide)⟩

/-- The spec's scoring formula, written as a sum over a keyword
collection `K` exactly as §4.2 words it: per keyword 10 for a filename
hit plus 5 for a path hit, a flat 2 for a primary-language extension,
the total scaled by 0.8 when the file exceeds 1000 lines, then 3 for an
entry-point name fragment and 8 for each domain term occurring in both
the instruction and the path.  Comparing it with `score_file` settles
whether the code computes this formula over the keyword SET (it does
not: it iterates the token list with multiplicity). -/
def spec_score (f : FileRecord) (K : List Str) (instruction : Str) : ℚ :=
  let file_path := toLowerStr f.path.data
  let file_name := toLowerStr f.name.data
  let base :=
    (K.map fun k =>
      (if containsSub k file_name then (10 : ℚ) else 0) +
      (if containsSub k file_path then (5 : ℚ) else 0)).sum +
    (if f.extension ∈ [".py", ".js", ".ts", ".tsx", ".jsx"] then (2 : ℚ)
     else 0)
  let scaled := if 1000 < f.lines then base * (4 / 5) else base
  scaled +
  (if (["config", "main", "index", "app", "core"].map String.data).any
      (fun n => containsSub n file_name) then (3 : ℚ) else 0) +
  (if containsSub "test".data (toLowerStr instruction) &&
      containsSub "test".data file_path then (8 : ℚ) else 0) +
  (if containsSub "component".data (toLowerStr instruction) &&
      containsSub "component".data file_path then (8 : ℚ) else 0) +
  (if containsSub "module".data (toLowerStr instruction) &&
      containsSub "module".data file_path then (8 : ℚ) else 0)

lemma ite_add_shift (c : Prop) [Decidable c] (x a : ℚ) :
    (if c then x + a else x) = x + (if c then a else 0) := by
  split <;> simp

lemma foldl_keyword_score (name path : Str) (K : List Str) (init : ℚ) :
    K.foldl
      (fun sc k =>
        let sc2 := if containsSub k name then sc + 10 else sc
        if containsSub k path then sc2 + 5 else sc2)
      init
    = init + (K.map fun k =>
        (if containsSub k name then (10 : ℚ) else 0) +
        (if containsSub k path then (5 : ℚ) else 0)).sum := by
  induction K generalizing init with
  | nil => simp
  | cons k ks ih =>
    simp only [List.foldl_cons, List.map_cons, List.sum_cons]
    rw [ih]
    by_cases h1 : containsSub k name = true <;>
      by_cases h2 : containsSub k path = true <;>
      simp [h1, h2] <;> ring

/-- Claim C7 counterexample: on the instruction `"auth auth"` (the
keyword token `auth` appears twice) and the file `auth.py`, the code's
score (32: the filename/path bonus is counted once per token occurrence)
differs from the spec formula evaluated over the deduplicated keyword
set (17), so the score does not equal the formula computed over the
keyword SET. -/
theorem score_file_set_formula_counterexample :
    score_file
        { path := "auth.py", absolute_path := "/p/auth.py",
          extension := ".py", size := 100, lines := 5, name := "auth.py",
          relevance_score := none }
        (extract_keywords "auth auth".data) "auth auth".data ≠
      spec_score
        { path := "auth.py", absolute_path := "/p/auth.py",
          extension := ".py", size := 100, lines := 5, name := "auth.py",
          relevance_score := none }
        (extract_keywords "auth auth".data).dedup "auth auth".data := by
  have hk : extract_keywords "auth auth".data = ["auth".data, "auth".data] := by
    decide
  have hd : (["auth".data, "auth".data] : List Str).dedup = ["auth".data] := by
    decide
  rw [hk, hd]
  unfold score_file spec_score
  dsimp only
  have cn : containsSub "auth".data (toLowerStr "auth.py".data) = true := by
    decide
  have cfrag : ((["config", "main", "index", "app", "core"].map
      String.data).any fun n => containsSub n (toLowerStr "auth.py".data))
      = false := by decide
  have ct : containsSub "test".data (toLowerStr "auth auth".data) = false := by
    decide
  have cc : containsSub "component".data (toLowerStr "auth auth".data)
      = false := by decide
  have cm : containsSub "module".data (toLowerStr "auth auth".data)
      = false := by decide
  have ce : (".py" : String) ∈ [".py", ".js", ".ts", ".tsx", ".jsx"] := by
    decide
  simp only [List.foldl_cons, List.foldl_nil, List.map_cons, List.map_nil,
    List.sum_cons, List.sum_nil, cn, cfrag, ct, cc, cm, ce, if_true,
    Bool.false_and, if_false, Bool.and_self]
  have cfrag2 : ¬(containsSub ['c', 'o', 'n', 'f', 'i', 'g']
        (toLowerStr ['a', 'u', 't', 'h', '.', 'p', 'y']) = true ∨
      containsSub ['m', 'a', 'i', 'n']
        (toLowerStr ['a', 'u', 't', 'h', '.', 'p', 'y']) = true ∨
      containsSub ['i', 'n', 'd', 'e', 'x']
        (toLowerStr ['a', 'u', 't', 'h', '.', 'p', 'y']) = true ∨
      containsSub ['a', 'p', 'p']
        (toLowerStr ['a', 'u', 't', 'h', '.', 'p', 'y']) = true ∨
      containsSub ['c', 'o', 'r', 'e']
        (toLowerStr ['a', 'u', 't', 'h', '.', 'p', 'y']) = true) := by decide
  norm_num [cfrag2]

/-- Claim C7 (amended): the Selector's relevance score equals the spec's
formula computed over the keyword token LIST of the instruction
(lowercase word tokens, stop words and tokens shorter than 3 characters
dropped, kept with multiplicity), for every file record and
instruction. -/
theorem score_file_matches_formula_multiset (f : FileRecord)
    (instruction : Str) :
    score_file f (extract_keywords instruction) instruction =
      spec_score f (extract_keywords instruction) instruction := by
  unfold score_file spec_score
  simp only []
  rw [foldl_keyword_score]
  rw [ite_add_shift, ite_add_shift, ite_add_shift, ite_add_shift,
    ite_add_shift]
  ring_nf

/-- Default record used with `List.getD` when indexing record lists. -/
def blankRecord : FileRecord :=
  { path := "", absolute_path := "", extension := "", size := 0, lines := 0,
    name := "", relevance_score := none }

lemma getD_map_of_lt (g : FileRecord → FileRecord) (l : List FileRecord)
    (i : Nat) (h : i < l.length) (d : FileRecord) :
    (l.map g).getD i d = g (l.getD i d) := by
  induction l generalizing i with
  | nil => simp at h
  | cons a t ih =>
    cases i with
    | zero => rfl
    | succ n =>
      simp only [List.map_cons, List.getD_cons_succ]
      exact ih n (by simpa using h)

/-- Claim C9 counterexample: `select_files` mutates its input records —
on the single file `auth.py` and instruction `"auth"` the post-call
state of the input list differs from the input (the positive score was
written into the record's `relevance_score` key). -/
theorem select_files_mutates_counterexample :
    (select_files MAX_FILES_TO_ANALYZE
        [{ path := "auth.py", absolute_path := "/p/auth.py",
           extension := ".py", size := 100, lines := 5, name := "auth.py",
           relevance_score := none }] "auth".data).1 ≠
      [{ path := "auth.py", absolute_path := "/p/auth.py",
         extension := ".py", size := 100, lines := 5, name := "auth.py",
         relevance_score := none }] := by
  have hk : extract_keywords "auth".data = ["auth".data] := by decide
  have cn : containsSub "auth".data (toLowerStr "auth.py".data) = true := by
    decide
  have ce : (".py" : String) ∈ [".py", ".js", ".ts", ".tsx", ".jsx"] := by
    decide
  have cfrag2 : ¬(containsSub ['c', 'o', 'n', 'f', 'i', 'g']
        (toLowerStr ['a', 'u', 't', 'h', '.', 'p', 'y']) = true ∨
      containsSub ['m', 'a', 'i', 'n']
        (toLowerStr ['a', 'u', 't', 'h', '.', 'p', 'y']) = true ∨
      containsSub ['i', 'n', 'd', 'e', 'x']
        (toLowerStr ['a', 'u', 't', 'h', '.', 'p', 'y']) = true ∨
      containsSub ['a', 'p', 'p']
        (toLowerStr ['a', 'u', 't', 'h', '.', 'p', 'y']) = true ∨
      containsSub ['c', 'o', 'r', 'e']
        (toLowerStr ['a', 'u', 't', 'h', '.', 'p', 'y']) = true) := by decide
  have ct2 : containsSub ['t', 'e', 's', 't']
      (toLowerStr ['a', 'u', 't', 'h']) = false := by decide
  have cc2 : containsSub ['c', 'o', 'm', 'p', 'o', 'n', 'e', 'n', 't']
      (toLowerStr ['a', 'u', 't', 'h']) = false := by decide
  have cm2 : containsSub ['m', 'o', 'd', 'u', 'l', 'e']
      (toLowerStr ['a', 'u', 't', 'h']) = false := by decide
  have hs : score_file
      { path := "auth.py", absolute_path := "/p/auth.py",
        extension := ".py", size := 100, lines := 5, name := "auth.py",
        relevance_score := none }
      (extract_keywords "auth".data) "auth".data = 17 := by
    rw [hk]
    unfold score_file
    dsimp only
    simp only [List.foldl_cons, List.foldl_nil, cn, ce, if_true]
    norm_num [cfrag2, ct2, cc2, cm2]
  unfold select_files annotateRecords
  dsimp only
  simp only [List.map_cons, List.map_nil]
  rw [hs]
  norm_num
  exact fun hcontra => Option.noConfusion hcontra

/-- Claim C9 (amended): `select_files` does mutate its inputs, in exactly
this way: after the call, the i-th input record is unchanged when its
computed relevance score is non-positive, and has its `relevance_score`
key set to that score when it is positive; the list of records itself
keeps its length and order. -/
theorem select_files_mutation_characterized (maxFiles : Nat)
    (files : List FileRecord) (instruction : Str) :
    (select_files maxFiles files instruction).1.length = files.length ∧
    ∀ i, i < files.length →
      (select_files maxFiles files instruction).1.getD i blankRecord =
        (if 0 < score_file (files.getD i blankRecord)
              (extract_keywords instruction) instruction then
           { files.getD i blankRecord with
             relevance_score := some (score_file (files.getD i blankRecord)
               (extract_keywords instruction) instruction) }
         else files.getD i blankRecord) := by
  have hfst : (select_files maxFiles files instruction).1
      = files.map (fun f =>
          let s := score_file f (extract_keywords instruction) instruction
          if 0 < s then { f with relevance_score := some s } else f) := rfl
  constructor
  · rw [hfst, List.length_map]
  · intro i hi
    rw [hfst, getD_map_of_lt _ files i hi blankRecord]

/-- Witness for C9's amended claim at the single-record list holding
`blankRecord` and instruction `"auth"`. -/
theorem select_files_mutation_characterized_witness :
    (select_files 15 [blankRecord] "auth".data).1.length = 1 ∧
    (select_files 15 [blankRecord] "auth".data).1.getD 0 blankRecord =
      (if 0 < score_file ([blankRecord].getD 0 blankRecord)
            (extract_keywords "auth".data) "auth".data then
         { [blankRecord].getD 0 blankRecord with
           relevance_score := some (score_file
             ([blankRecord].getD 0 blankRecord)
             (extract_keywords "auth".data) "auth".data) }
       else [blankRecord].getD 0 blankRecord) :=
  ⟨(select_files_mutation_characterized 15 [blankRecord] "auth".data).1,
   (select_files_mutation_characterized 15 [blankRecord] "auth".data).2 0
     (by decide)⟩

lemma assocLookup_append_of_none {α β : Type} [DecidableEq α]
    (l1 l2 : List (α × β)) (k : α) (h : assocLookup l1 k = none) :
    assocLookup (l1 ++ l2) k = assocLookup l2 k := by
  induction l1 with
  | nil => rfl
  | cons p t ih =>
    by_cases hp : p.1 = k
    · simp [assocLookup, hp] at h
    · simp only [assocLookup, hp, if_neg, if_false, List.cons_append] at *
      simp [assocLookup, hp] at *
      exact ih h

lemma assocLookup_append_of_some {α β : Type} [DecidableEq α]
    (l1 l2 : List (α × β)) (k : α) (v : β) (h : assocLookup l1 k = some v) :
    assocLookup (l1 ++ l2) k = some v := by
  induction l1 with
  | nil => simp [assocLookup] at h
  | cons p t ih =>
    by_cases hp : p.1 = k
    · simp only [assocLookup, hp, if_pos, List.cons_append] at *
      simp [assocLookup] at *
      exact h
    · simp only [List.cons_append, assocLookup, hp, if_neg, if_false] at *
      simp [assocLookup, hp] at *
      exact ih h

lemma setDefaultKey_lookup_self (o : JObj) (k : String) (v : JValue) :
    assocLookup (setDefaultKey o k v) k
      = some ((assocLookup o k).getD v) := by
  unfold setDefaultKey
  cases h : assocLookup o k with
  | none =>
    simp only [h, Option.isSome_none, Bool.false_eq_true, if_false,
      Option.getD_none]
    rw [assocLookup_append_of_none o [(k, v)] k h]
    simp [assocLookup]
  | some w =>
    simp [h]

lemma setDefaultKey_lookup_other (o : JObj) (k : String) (v : JValue)
    (k2 : String) (hne : k ≠ k2) :
    assocLookup (setDefaultKey o k v) k2 = assocLookup o k2 := by
  unfold setDefaultKey
  cases h : assocLookup o k with
  | none =>
    simp only [Option.isSome_none, Bool.false_eq_true, if_false]
    cases h2 : assocLookup o k2 with
    | none =>
      rw [assocLookup_append_of_none o [(k, v)] k2 h2]
      simp [assocLookup, hne]
    | some w => exact assocLookup_append_of_some o [(k, v)] k2 w h2
  | some w => simp [h]

/-- Claim C4 counterexample: the plan parser's defaulting step, applied
to the empty JSON object, leaves the `test_command` key absent — the
parsed plan does not contain every schema key. -/
theorem parse_plan_validate_drops_test_command :
    assocLookup (parse_plan_validate []) "test_command" = none ∧
    parse_plan (fun _ => some (JValue.obj []))
        "x".data = some (parse_plan_validate []) := by
  constructor
  · rfl
  · rfl

/-- Claim C4 (amended): for every JSON object the plan parser accepts,
the parsed plan has `targets`, `actions`, `package_installs`,
`websearch_queries` present (defaulting to the empty array when missing)
and `run_tests` present (defaulting to false); `test_command` alone is
not defaulted — it is passed through exactly as in the input, absent
when missing. -/
theorem parse_plan_validate_defaults (o : JObj) :
    assocLookup (parse_plan_validate o) "targets"
      = some ((assocLookup o "targets").getD (JValue.arr [])) ∧
    assocLookup (parse_plan_validate o) "actions"
      = some ((assocLookup o "actions").getD (JValue.arr [])) ∧
    assocLookup (parse_plan_validate o) "package_installs"
      = some ((assocLookup o "package_installs").getD (JValue.arr [])) ∧
    assocLookup (parse_plan_validate o) "websearch_queries"
      = some ((assocLookup o "websearch_queries").getD (JValue.arr [])) ∧
    assocLookup (parse_plan_validate o) "run_tests"
      = some ((assocLookup o "run_tests").getD (JValue.bool false)) ∧
    assocLookup (parse_plan_validate o) "test_command"
      = assocLookup o "test_command" := by
  unfold parse_plan_validate
  refine ⟨?_, ?_, ?_, ?_, ?_, ?_⟩
  · rw [setDefaultKey_lookup_other _ _ _ _ (by decide),
      setDefaultKey_lookup_other _ _ _ _ (by decide),
      setDefaultKey_lookup_other _ _ _ _ (by decide),
      setDefaultKey_lookup_other _ _ _ _ (by decide),
      setDefaultKey_lookup_self]
  · rw [setDefaultKey_lookup_other _ _ _ _ (by decide),
      setDefaultKey_lookup_other _ _ _ _ (by decide),
      setDefaultKey_lookup_other _ _ _ _ (by decide),
      setDefaultKey_lookup_self,
      setDefaultKey_lookup_other _ _ _ _ (by decide)]
  · rw [setDefaultKey_lookup_other _ _ _ _ (by decide),
      setDefaultKey_lookup_other _ _ _ _ (by decide),
      setDefaultKey_lookup_self,
      setDefaultKey_lookup_other _ _ _ _ (by decide),
      setDefaultKey_lookup_other _ _ _ _ (by decide)]
  · rw [setDefaultKey_lookup_other _ _ _ _ (by decide),
      setDefaultKey_lookup_self,
      setDefaultKey_lookup_other _ _ _ _ (by decide),
      setDefaultKey_lookup_other _ _ _ _ (by decide),
      setDefaultKey_lookup_other _ _ _ _ (by decide)]
  · rw [setDefaultKey_lookup_self,
      setDefaultKey_lookup_other _ _ _ _ (by decide),
      setDefaultKey_lookup_other _ _ _ _ (by decide),
      setDefaultKey_lookup_other _ _ _ _ (by decide),
      setDefaultKey_lookup_other _ _ _ _ (by decide)]
  · rw [setDefaultKey_lookup_other _ _ _ _ (by decide),
      setDefaultKey_lookup_other _ _ _ _ (by decide),
      setDefaultKey_lookup_other _ _ _ _ (by decide),
      setDefaultKey_lookup_other _ _ _ _ (by decide),
      setDefaultKey_lookup_other _ _ _ _ (by decide)]

/-- Claim C3 counterexample: when the transport fails (the generate call
raises, modelled as the `Except.error` outcome), `create_plan` does NOT
return the EmptyPlan sentinel and `generate_edits` does NOT return the
empty edits object — the error propagates out of both. -/
theorem transport_error_propagates_counterexample :
    create_plan (fun _ => none) (Except.error "ConnectionError")
      ≠ Except.ok emptyPlanObj ∧
    generate_edits (fun _ => none) (Except.error "ConnectionError")
      ≠ Except.ok emptyEditsObj := by
  constructor
  · intro h
    exact Except.noConfusion h
  · intro h
    exact Except.noConfusion h

/-- Claim C3 (amended): a transport failure (the generate call raising)
propagates unchanged out of `PlannerAgent.create_plan` and
`WorkerAgent.generate_edits` — only a parse failure after a successful
generate is caught per call, yielding the EmptyPlan sentinel
resp. the empty edits object. -/
theorem transport_propagates_parse_caught (decode : Str → Option JValue)
    (e : String) (r : Str) :
    create_plan decode (Except.error e) = Except.error e ∧
    generate_edits decode (Except.error e) = Except.error e ∧
    (parse_plan decode r = none →
      create_plan decode (Except.ok r) = Except.ok emptyPlanObj) ∧
    (parse_edits decode r = none →
      generate_edits decode (Except.ok r) = Except.ok emptyEditsObj) := by
  refine ⟨rfl, rfl, ?_, ?_⟩
  · intro h
    simp only [create_plan, h]
  · intro h
    simp only [generate_edits, h]

/-- Witness for C3's amended claim with a decoder that always fails and a
concrete unparseable response. -/
theorem transport_propagates_parse_caught_witness :
    create_plan (fun _ => none) (Except.error "ConnectionError")
      = Except.error "ConnectionError" ∧
    generate_edits (fun _ => none) (Except.error "ConnectionError")
      = Except.error "ConnectionError" ∧
    create_plan (fun _ => none) (Except.ok "not json".data)
      = Except.ok emptyPlanObj ∧
    generate_edits (fun _ => none) (Except.ok "not json".data)
      = Except.ok emptyEditsObj :=
  ⟨(transport_propagates_parse_caught (fun _ => none) "ConnectionError"
      "not json".data).1,
   (transport_propagates_parse_caught (fun _ => none) "ConnectionError"
      "not json".data).2.1,
   (transport_propagates_parse_caught (fun _ => none) "ConnectionError"
      "not json".data).2.2.1 rfl,
   (transport_propagates_parse_caught (fun _ => none) "ConnectionError"
      "not json".data).2.2.2 rfl⟩

end AgentPipeline
